import Mathlib

/-!
# Verification of the secp256k1 arithmetic core

A shallow embedding of the scalar arithmetic, constant-time helpers, parity
conversions and tweak operations of the `bitcoin-k256` repository, together
with proofs of the specified properties.

Byte arrays (`[u8; 32]`, byte slices) are modelled as `List Nat` whose
elements are below 256; machine integers are modelled as `Nat` with explicit
reductions.  Fallible Rust functions returning `Result` are modelled with
`Except`; a Rust `panic!` is modelled by `Option` (`none` = panic).
-/

set_option maxRecDepth 100000

namespace BitcoinK256

/-! ## Byte-level primitives -/

/-- Interpret a byte list as a big-endian natural number. -/
def bytesToNat (bs : List Nat) : Nat :=
  bs.foldl (fun acc b => acc * 256 + b) 0

/-- Serialize a natural number as a big-endian byte list of the given width
(the semantics of `k256`'s 32-byte scalar serialization). -/
def natToBytesBE : Nat → Nat → List Nat
  | 0, _ => []
  | k + 1, v => natToBytesBE k (v / 256) ++ [v % 256]

/-- All elements of the list are valid byte values. -/
def GoodBytes (bs : List Nat) : Prop :=
  ∀ b ∈ bs, b < 256

instance : DecidablePred GoodBytes := fun bs =>
  inferInstanceAs (Decidable (∀ b ∈ bs, b < 256))

/-- `xor_arrays` from `src/crypto/utils.rs`: elementwise XOR of two
equal-length byte arrays. -/
def xor_arrays (arr1 arr2 : List Nat) : List Nat :=
  List.zipWith Nat.xor arr1 arr2

/-- One iteration of the comparison loop in `ct_slice_lex_cmp`
(`src/crypto/utils.rs`): the state is the pair
`(whole_slice_is_eq, whole_slice_is_gt)`. -/
def ctLexStep (st : Bool × Bool) (p : Nat × Nat) : Bool × Bool :=
  let whole_slice_is_gt := st.2 || (st.1 && decide (p.2 < p.1))
  let whole_slice_is_eq := st.1 && decide (p.1 = p.2)
  (whole_slice_is_eq, whole_slice_is_gt)

/-- `ct_slice_lex_cmp` from `src/crypto/utils.rs` (also duplicated in
`src/utils.rs`): constant-time lexicographic comparison of two byte slices.
The loop accumulates the `is_eq`/`is_gt` flags over the zipped slices, and
the final ordering is resolved by a chain of conditional assignments. -/
def ct_slice_lex_cmp (lhs rhs : List Nat) : Ordering :=
  let st := (lhs.zip rhs).foldl ctLexStep (true, false)
  let lhs_is_longer := decide (rhs.length < lhs.length)
  let rhs_is_longer := decide (lhs.length < rhs.length)
  let order := Ordering.lt
  let order := if st.1 then Ordering.eq else order
  let order := if st.1 && lhs_is_longer then Ordering.gt else order
  let order := if st.1 && rhs_is_longer then Ordering.lt else order
  let order := if st.2 then Ordering.gt else order
  order

/-- Reference specification of lexicographic ordering on lists: compare the
common prefix element by element; a strict prefix is smaller. -/
def lexOrderSpec : List Nat → List Nat → Ordering
  | [], [] => Ordering.eq
  | [], _ :: _ => Ordering.lt
  | _ :: _, [] => Ordering.gt
  | a :: as, b :: bs =>
    match compare a b with
    | Ordering.eq => lexOrderSpec as bs
    | o => o

/-! ## Curve constants (`src/crypto/scalar.rs`) -/

/-- `MAX_U256`: the all-ones 256-bit value as 32 bytes. -/
def MAX_U256 : List Nat := List.replicate 32 0xFF

/-- `CURVE_ORDER_BYTES`: big-endian bytes of the secp256k1 curve order `n`. -/
def CURVE_ORDER_BYTES : List Nat :=
  [0xFF, 0xFF, 0xFF, 0xFF, 0xFF, 0xFF, 0xFF, 0xFF,
   0xFF, 0xFF, 0xFF, 0xFF, 0xFF, 0xFF, 0xFF, 0xFE,
   0xBA, 0xAE, 0xDC, 0xE6, 0xAF, 0x48, 0xA0, 0x3B,
   0xBF, 0xD2, 0x5E, 0x8C, 0xD0, 0x36, 0x41, 0x41]

/-- `CURVE_ORDER_MINUS_ONE_BYTES`: big-endian bytes of `n - 1`. -/
def CURVE_ORDER_MINUS_ONE_BYTES : List Nat :=
  [0xFF, 0xFF, 0xFF, 0xFF, 0xFF, 0xFF, 0xFF, 0xFF,
   0xFF, 0xFF, 0xFF, 0xFF, 0xFF, 0xFF, 0xFF, 0xFE,
   0xBA, 0xAE, 0xDC, 0xE6, 0xAF, 0x48, 0xA0, 0x3B,
   0xBF, 0xD2, 0x5E, 0x8C, 0xD0, 0x36, 0x41, 0x40]

/-- The secp256k1 curve order `n` as a natural number. -/
def curveOrder : Nat := bytesToNat CURVE_ORDER_BYTES

/-! ## Scalar and MaybeScalar (`src/crypto/scalar.rs`)

`Scalar` wraps `k256::NonZeroScalar`, which stores a canonical field residue;
we model the residue as a bare `Nat` and carry the range invariant
`1 ≤ inner < n` as an explicit predicate, mirroring the guarantee the Rust
type system provides by construction. -/

/-- `Scalar`: wraps the `k256::NonZeroScalar` residue value. -/
structure Scalar where
  inner : Nat
deriving DecidableEq

/-- The invariant of `k256::NonZeroScalar`: a non-zero canonical residue. -/
def Scalar.isValid (s : Scalar) : Prop :=
  1 ≤ s.inner ∧ s.inner < curveOrder

instance : DecidablePred Scalar.isValid := fun s =>
  inferInstanceAs (Decidable (1 ≤ s.inner ∧ s.inner < curveOrder))

/-- `MaybeScalar`: a scalar which might be zero. -/
inductive MaybeScalar where
  | Zero
  | Valid (s : Scalar)
deriving DecidableEq

/-- Error type `InvalidScalarBytes` from `src/crypto/error.rs`. -/
structure InvalidScalarBytes where
deriving DecidableEq

/-- Error type `ZeroScalarError` from `src/crypto/error.rs`. -/
structure ZeroScalarError where
deriving DecidableEq

/-- `Scalar::serialize`: 32-byte big-endian serialization of the residue. -/
def Scalar.serialize (s : Scalar) : List Nat :=
  natToBytesBE 32 s.inner

/-- `MaybeScalar::serialize`: zero serializes to 32 zero bytes. -/
def MaybeScalar.serialize : MaybeScalar → List Nat
  | MaybeScalar.Zero => List.replicate 32 0
  | MaybeScalar.Valid s => s.serialize

/-- `Scalar::from_slice` (= `k256::NonZeroScalar::try_from`): parses a
32-byte big-endian slice as a scalar in `[1, n)`. -/
def Scalar.from_slice (bytes : List Nat) : Except InvalidScalarBytes Scalar :=
  if bytes.length = 32 ∧ 0 < bytesToNat bytes ∧ bytesToNat bytes < curveOrder then
    Except.ok (Scalar.mk (bytesToNat bytes))
  else
    Except.error InvalidScalarBytes.mk

/-- `MaybeScalar::from_slice`: first tries `Scalar::try_from`, then accepts
the all-zero array as `Zero`, otherwise propagates the parse error. -/
def MaybeScalar.from_slice (bytes : List Nat) : Except InvalidScalarBytes MaybeScalar :=
  match Scalar.from_slice bytes with
  | Except.ok s => Except.ok (MaybeScalar.Valid s)
  | Except.error e =>
    if bytes = List.replicate 32 0 then Except.ok MaybeScalar.Zero
    else Except.error e

/-- `MaybeScalar::into_option`. -/
def MaybeScalar.into_option : MaybeScalar → Option Scalar
  | MaybeScalar.Zero => none
  | MaybeScalar.Valid s => some s

/-- `MaybeScalar::unwrap`: coerces into a `Scalar`, panicking (modelled as
`none`) on `Zero`. -/
def MaybeScalar.unwrap : MaybeScalar → Option Scalar
  | MaybeScalar.Valid s => some s
  | MaybeScalar.Zero => none

/-- `MaybeScalar::not_zero`. -/
def MaybeScalar.not_zero : MaybeScalar → Except ZeroScalarError Scalar
  | MaybeScalar.Valid s => Except.ok s
  | MaybeScalar.Zero => Except.error ZeroScalarError.mk

/-- `Scalar::one()`: the canonical residue 1 (parsed from `0x00..01`). -/
def Scalar.one : Scalar := Scalar.mk 1

/-- `Scalar::max()`: `n - 1`, parsed from `CURVE_ORDER_MINUS_ONE_BYTES`. -/
def Scalar.max : Scalar := Scalar.mk (bytesToNat CURVE_ORDER_MINUS_ONE_BYTES)

/-! ## Inner arithmetic (`src/crypto/arithmetic.rs`, `inner_operator_impl`)

The underlying `k256` field arithmetic on canonical residues is modular
arithmetic on `Nat` with an explicit `% n`. -/

/-- `Scalar + Scalar -> MaybeScalar`: adds the inner residues and checks the
sum for zero (`k256::NonZeroScalar::new`). -/
def Scalar.add (a other : Scalar) : MaybeScalar :=
  let sum := (a.inner + other.inner) % curveOrder
  if sum = 0 then MaybeScalar.Zero else MaybeScalar.Valid (Scalar.mk sum)

/-- `Scalar * Scalar -> Scalar`: multiplies the inner residues
(`k256::NonZeroScalar` multiplication). -/
def Scalar.mul (a other : Scalar) : Scalar :=
  Scalar.mk ((a.inner * other.inner) % curveOrder)

/-- `-Scalar`: negation of the inner residue modulo `n`. -/
def Scalar.neg (a : Scalar) : Scalar :=
  Scalar.mk ((curveOrder - a.inner % curveOrder) % curveOrder)

/-- `-MaybeScalar` (`src/crypto/arithmetic.rs`). -/
def MaybeScalar.neg (a : MaybeScalar) : MaybeScalar :=
  (a.into_option.map (fun scalar => MaybeScalar.Valid (Scalar.neg scalar))).getD
    MaybeScalar.Zero

/-! ## The generic algebra dispatcher (`src/crypto/arithmetic.rs`)

The Rust `Optional<T>` capability trait and the trait bounds
`I: Add<Output = T3>`, `T3: From<I> + Default` become explicit function
parameters `optA`/`optB`, `addInner`, `lift` and `dflt`. -/

/-- `add_any`: generic addition across maybe/non-maybe operand types. -/
def add_any {T1 T2 T3 I : Type} (optA : T1 → Option I) (optB : T2 → Option I)
    (addInner : I → I → T3) (dflt : T3) (lift : I → T3) (a : T1) (b : T2) : T3 :=
  match optA a with
  | none =>
    match optB b with
    | none => dflt
    | some b_inner => lift b_inner
  | some a_inner =>
    match optB b with
    | none => lift a_inner
    | some b_inner => addInner a_inner b_inner

/-- `subtract_any`: simply addition with the right-hand side negated. -/
def subtract_any {T1 T2 N2 T3 : Type} (negB : T2 → N2) (addOp : T1 → N2 → T3)
    (a : T1) (b : T2) : T3 :=
  addOp a (negB b)

/-- `MaybeScalar + MaybeScalar`, instantiated through `add_any`. -/
def MaybeScalar.addMaybe (a b : MaybeScalar) : MaybeScalar :=
  add_any MaybeScalar.into_option MaybeScalar.into_option Scalar.add
    MaybeScalar.Zero MaybeScalar.Valid a b

/-- `MaybeScalar + Scalar`, instantiated through `add_any`
(`Optional<Scalar> for Scalar` yields `Some(self)`). -/
def MaybeScalar.addScalar (a : MaybeScalar) (b : Scalar) : MaybeScalar :=
  add_any MaybeScalar.into_option (fun s => some s) Scalar.add
    MaybeScalar.Zero MaybeScalar.Valid a b

/-- `MaybeScalar - MaybeScalar`, instantiated through `subtract_any`. -/
def MaybeScalar.subMaybe (a b : MaybeScalar) : MaybeScalar :=
  subtract_any MaybeScalar.neg MaybeScalar.addMaybe a b

/-! ## Modular reduction (`src/crypto/scalar.rs`) -/

/-- `MaybeScalar::conditional_select` (via `k256::Scalar::conditional_select`):
returns `b` when the choice flag is set, `a` otherwise. -/
def MaybeScalar.conditional_select (a b : MaybeScalar) (choice : Bool) : MaybeScalar :=
  if choice then b else a

/-- `MaybeScalar::reduce_from_internal`: reduces a 256-bit big-endian integer
`z` modulo `modulus` in constant time, using XOR-with-all-ones as
subtraction from `MAX_U256`.  The two `.unwrap()` calls on the intermediate
parses are modelled by the `Option`: `none` is a panic. -/
def MaybeScalar.reduce_from_internal (z_bytes modulus : List Nat) :
    Option MaybeScalar :=
  let modulus_neg_bytes := xor_arrays modulus MAX_U256
  let z_bytes_neg := xor_arrays z_bytes MAX_U256
  let z_needs_reduction := ct_slice_lex_cmp z_bytes modulus != Ordering.lt
  let q_bytes := if z_needs_reduction then z_bytes_neg else z_bytes
  match MaybeScalar.from_slice q_bytes, MaybeScalar.from_slice modulus_neg_bytes with
  | Except.ok q, Except.ok r =>
    some (MaybeScalar.conditional_select q (MaybeScalar.subMaybe r q) z_needs_reduction)
  | _, _ => none

/-- `Scalar::reduce_from`: reduces `z` modulo `n - 1` and shifts by one.
The `.unwrap()` on the final sum is modelled by the `Option`. -/
def Scalar.reduce_from (z_bytes : List Nat) : Option Scalar :=
  match MaybeScalar.reduce_from_internal z_bytes CURVE_ORDER_MINUS_ONE_BYTES with
  | none => none
  | some reduced => (MaybeScalar.addScalar reduced Scalar.one).unwrap

/-! ## Tweak operations (`src/utils.rs`) -/

/-- `k256::SecretKey`: a non-zero scalar below the curve order; we model the
residue as a bare `Nat` like `Scalar`. -/
structure SecretKey where
  inner : Nat
deriving DecidableEq

/-- `Scalar::greater_than_curve_order_minus_one`: constant-time comparison of
the serialized scalar against `Scalar::max()` (`ct_gt` via
`ct_slice_lex_cmp`). -/
def Scalar.greater_than_curve_order_minus_one (s : Scalar) : Bool :=
  ct_slice_lex_cmp s.serialize Scalar.max.serialize == Ordering.gt

/-- Modelled from the spec: `Scalar::curve_order_minus_one()` is called by
`add_tweak` in `src/utils.rs` but its definition is not among the provided
sources; per the spec's named constants it is the scalar `n - 1`
(the same value as `Scalar::max()`). -/
def Scalar.curve_order_minus_one : Scalar := Scalar.max

/-- `add_tweak` from `src/utils.rs`: tweaks a secret key by adding `tweak`
modulo the curve order. -/
def add_tweak (sk : SecretKey) (tweak : Scalar) : Except String SecretKey :=
  let sk_scalar := Scalar.mk sk.inner
  let secp_order_minus_one := Scalar.curve_order_minus_one
  if sk_scalar.greater_than_curve_order_minus_one
      || tweak.greater_than_curve_order_minus_one then
    Except.error
      "Secret key and tweak cannot be greater than or equal to the Secp256k1 curve order"
  else
    match Scalar.add sk_scalar tweak with
    | MaybeScalar.Zero =>
      Except.error "Invalid scalar value, greater than or equal to curve order"
    | MaybeScalar.Valid sk_prime =>
      if !sk_prime.greater_than_curve_order_minus_one then
        Except.ok (SecretKey.mk sk_prime.inner)
      else
        match Scalar.add sk_prime (Scalar.neg secp_order_minus_one) with
        | MaybeScalar.Zero => Except.error "Invalid scalar value 2"
        | MaybeScalar.Valid s => Except.ok (SecretKey.mk s.inner)

/-- `k256::PublicKey`: a non-identity affine point; `add_exp_tweak` never
inspects the coordinates, so the affine data is carried opaquely. -/
structure PublicKey where
  x : Nat
  y : Nat
deriving DecidableEq

/-- The well-known secp256k1 generator point. -/
def generatorPoint : PublicKey :=
  PublicKey.mk
    0x79BE667EF9DCBBAC55A06295CE870B07029BFCDB2DCE28D959F2815B16F81798
    0x483ADA7726A3C4655DA4FBFC0E1108A8FD17B448A68554199C47D08FFB10D4B8

/-- `add_exp_tweak` from `src/utils.rs`: the body is stubbed out in the
source (the tweak logic is commented away) and it simply returns `Ok(pk)`. -/
def add_exp_tweak (pk : PublicKey) (tweak : Scalar) : Except String PublicKey :=
  Except.ok pk

/-! ## Parity (`src/common/types.rs`) -/

/-- `Parity`: even or odd. -/
inductive Parity where
  | Even
  | Odd
deriving DecidableEq

/-- Error type `InvalidParityValue` from `src/common/types.rs`. -/
structure InvalidParityValue where
  value : Int
deriving DecidableEq

/-- `Parity::from_i32`: `0` is `Even`, `1` is `Odd`, anything else errors. -/
def Parity.from_i32 (parity : Int) : Except InvalidParityValue Parity :=
  if parity = 0 then Except.ok Parity.Even
  else if parity = 1 then Except.ok Parity.Odd
  else Except.error (InvalidParityValue.mk parity)

/-- `Parity::from_u8`: delegates to `from_i32` after widening the byte. -/
def Parity.from_u8 (parity : Nat) : Except InvalidParityValue Parity :=
  Parity.from_i32 (parity : Int)

/-! ## Fast modular exponentiation

Used to check the Lucas primality certificate of the curve order by kernel
computation.  Fuel-based binary exponentiation; the fuel bounds the number
of halvings of the exponent. -/

/-- Equality of `Except` results is decidable when both components are. -/
instance exceptDecidableEq {e a : Type} [DecidableEq e] [DecidableEq a] :
    DecidableEq (Except e a) := fun x y =>
  match x, y with
  | Except.ok v, Except.ok w =>
    if h : v = w then Decidable.isTrue (by rw [h])
    else Decidable.isFalse (by intro hc; injection hc; contradiction)
  | Except.ok _, Except.error _ => Decidable.isFalse (by intro hc; exact Except.noConfusion hc)
  | Except.error _, Except.ok _ => Decidable.isFalse (by intro hc; exact Except.noConfusion hc)
  | Except.error d, Except.error f =>
    if h : d = f then Decidable.isTrue (by rw [h])
    else Decidable.isFalse (by intro hc; injection hc; contradiction)

/-- Binary modular exponentiation with explicit fuel. -/
def powModAux (m : Nat) : Nat → Nat → Nat → Nat → Nat
  | 0, _, _, acc => acc
  | fuel + 1, a, e, acc =>
    if e = 0 then acc
    else powModAux m fuel (a * a % m) (e / 2) (if e % 2 = 1 then acc * a % m else acc)

/-- `a ^ e % m`, computable in `O(log e)` modular multiplications. -/
def powMod (m a e : Nat) : Nat := powModAux m (e + 1) (a % m) e (1 % m)

/-! ## Lemmas about the byte encoding -/

theorem foldlMulBase (l : List Nat) (a : Nat) :
    l.foldl (fun acc b => acc * 256 + b) a =
      a * 256 ^ l.length + l.foldl (fun acc b => acc * 256 + b) 0 := by
  induction l generalizing a with
  | nil => simp
  | cons b t ih =>
    simp only [List.foldl_cons, List.length_cons, Nat.zero_mul, Nat.zero_add]
    rw [ih (a * 256 + b), ih b]
    ring

theorem bytesToNat_cons (b : Nat) (l : List Nat) :
    bytesToNat (b :: l) = b * 256 ^ l.length + bytesToNat l := by
  simp only [bytesToNat, List.foldl_cons, Nat.zero_mul, Nat.zero_add]
  exact foldlMulBase l b

theorem bytesToNat_append_single (l : List Nat) (b : Nat) :
    bytesToNat (l ++ [b]) = bytesToNat l * 256 + b := by
  simp [bytesToNat, List.foldl_append]

theorem natToBytesBE_length (k v : Nat) : (natToBytesBE k v).length = k := by
  induction k generalizing v with
  | zero => rfl
  | succ k ih => simp [natToBytesBE, ih]

theorem natToBytesBE_good (k v : Nat) : GoodBytes (natToBytesBE k v) := by
  induction k generalizing v with
  | zero => intro b hb; simp [natToBytesBE] at hb
  | succ k ih =>
    intro b hb
    simp only [natToBytesBE, List.mem_append, List.mem_singleton] at hb
    rcases hb with h | h
    · exact ih _ b h
    · subst h; exact Nat.mod_lt _ (by norm_num)

theorem bytesToNat_natToBytesBE (k v : Nat) :
    bytesToNat (natToBytesBE k v) = v % 256 ^ k := by
  induction k generalizing v with
  | zero => simp [natToBytesBE, bytesToNat, Nat.mod_one]
  | succ k ih =>
    rw [natToBytesBE, bytesToNat_append_single, ih]
    have h : (256 : Nat) ^ (k + 1) = 256 * 256 ^ k := by ring
    rw [h, Nat.mod_mul]
    ring

theorem bytesToNat_lt (l : List Nat) (hg : GoodBytes l) :
    bytesToNat l < 256 ^ l.length := by
  induction l with
  | nil => simp [bytesToNat]
  | cons b t ih =>
    have hb : b < 256 := hg b (by simp)
    have ht : bytesToNat t < 256 ^ t.length :=
      ih (fun x hx => hg x (List.mem_cons_of_mem _ hx))
    rw [bytesToNat_cons, List.length_cons]
    calc b * 256 ^ t.length + bytesToNat t
        < b * 256 ^ t.length + 256 ^ t.length := by omega
      _ = (b + 1) * 256 ^ t.length := by ring
      _ ≤ 256 * 256 ^ t.length := Nat.mul_le_mul_right _ (by omega)
      _ = 256 ^ (t.length + 1) := by ring

theorem bytesToNat_eq_zero (l : List Nat) :
    bytesToNat l = 0 ↔ ∀ b ∈ l, b = 0 := by
  induction l with
  | nil => simp [bytesToNat]
  | cons b t ih =>
    rw [bytesToNat_cons]
    have hpow : 0 < 256 ^ t.length := Nat.pos_pow_of_pos _ (by norm_num)
    constructor
    · intro h
      have hmul : b * 256 ^ t.length = 0 := by omega
      have hb : b = 0 := by
        rcases Nat.mul_eq_zero.mp hmul with h0 | h0
        · exact h0
        · exact absurd h0 hpow.ne'
      have ht : bytesToNat t = 0 := by omega
      intro x hx
      rcases List.mem_cons.mp hx with rfl | hx
      · exact hb
      · exact (ih.mp ht) x hx
    · intro h
      have hb : b = 0 := h b (by simp)
      have ht : bytesToNat t = 0 := ih.mpr (fun x hx => h x (List.mem_cons_of_mem _ hx))
      rw [hb, ht]
      simp

theorem eq_replicate_zero_of_bytesToNat_eq_zero (l : List Nat)
    (h : bytesToNat l = 0) : l = List.replicate l.length 0 := by
  rw [List.eq_replicate]
  exact ⟨rfl, (bytesToNat_eq_zero l).mp h⟩

theorem xor_byte_complement : ∀ b < 256, Nat.xor b 255 = 255 - b := by decide

theorem xor_arrays_complement (l : List Nat) (hg : GoodBytes l) :
    bytesToNat (xor_arrays l (List.replicate l.length 255)) + bytesToNat l + 1 =
      256 ^ l.length := by
  induction l with
  | nil => rfl
  | cons b t ih =>
    have hb : b < 256 := hg b (by simp)
    have ht := ih (fun x hx => hg x (List.mem_cons_of_mem _ hx))
    have hlen : (xor_arrays t (List.replicate t.length 255)).length = t.length := by
      simp [xor_arrays]
    rw [List.length_cons, List.replicate_succ]
    show bytesToNat (Nat.xor b 255 :: xor_arrays t (List.replicate t.length 255)) +
      bytesToNat (b :: t) + 1 = 256 ^ (t.length + 1)
    rw [bytesToNat_cons, bytesToNat_cons, hlen, xor_byte_complement b hb]
    have hsub : (255 - b) + b = 255 := by omega
    calc (255 - b) * 256 ^ t.length + bytesToNat (xor_arrays t (List.replicate t.length 255)) +
          (b * 256 ^ t.length + bytesToNat t) + 1
        = ((255 - b) + b) * 256 ^ t.length +
            (bytesToNat (xor_arrays t (List.replicate t.length 255)) + bytesToNat t + 1) := by
          ring
      _ = 255 * 256 ^ t.length + 256 ^ t.length := by rw [hsub, ht]
      _ = 256 ^ (t.length + 1) := by ring

theorem xor_arrays_good (l r : List Nat) (hl : GoodBytes l) (hr : GoodBytes r) :
    GoodBytes (xor_arrays l r) := by
  induction l generalizing r with
  | nil => intro b hb; simp [xor_arrays] at hb
  | cons x t ih =>
    cases r with
    | nil => intro b hb; simp [xor_arrays] at hb
    | cons y s =>
      intro b hb
      simp only [xor_arrays, List.zipWith_cons_cons] at hb
      rcases List.mem_cons.mp hb with rfl | hb
      · have hx : x < 2 ^ 8 := by
          have := hl x (by simp)
          omega
        have hy : y < 2 ^ 8 := by
          have := hr y (by simp)
          omega
        calc Nat.xor x y < 2 ^ 8 := Nat.xor_lt_two_pow hx hy
          _ ≤ 256 := by norm_num
      · exact ih s (fun z hz => hl z (List.mem_cons_of_mem _ hz))
          (fun z hz => hr z (List.mem_cons_of_mem _ hz)) b hb

/-! ## Lemmas about the constant-time comparison -/

theorem natCompare_self (a : Nat) : compare a a = Ordering.eq := by
  show compareOfLessAndEq a a = Ordering.eq
  unfold compareOfLessAndEq
  simp

theorem natCompare_lt {a b : Nat} (h : a < b) : compare a b = Ordering.lt := by
  show compareOfLessAndEq a b = Ordering.lt
  unfold compareOfLessAndEq
  simp [h]

theorem natCompare_gt {a b : Nat} (h : b < a) : compare a b = Ordering.gt := by
  show compareOfLessAndEq a b = Ordering.gt
  unfold compareOfLessAndEq
  have h1 : ¬(a < b) := by omega
  have h2 : a ≠ b := by omega
  simp [h1, h2]

theorem ctLexLoop_false (zs : List (Nat × Nat)) (g : Bool) :
    zs.foldl ctLexStep (false, g) = (false, g) := by
  induction zs with
  | nil => rfl
  | cons p t ih => simpa [ctLexStep] using ih

theorem ct_cons_same (a : Nat) (as bs : List Nat) :
    ct_slice_lex_cmp (a :: as) (a :: bs) = ct_slice_lex_cmp as bs := by
  unfold ct_slice_lex_cmp
  simp [ctLexStep]

theorem lexOrderSpec_cons (a b : Nat) (as bs : List Nat) :
    lexOrderSpec (a :: as) (b :: bs) =
      match compare a b with
      | Ordering.eq => lexOrderSpec as bs
      | o => o := rfl

theorem ct_slice_lex_cmp_correct (lhs : List Nat) :
    ∀ rhs, ct_slice_lex_cmp lhs rhs = lexOrderSpec lhs rhs := by
  induction lhs with
  | nil =>
    intro rhs
    cases rhs with
    | nil => rfl
    | cons b bs =>
      unfold ct_slice_lex_cmp lexOrderSpec
      simp
  | cons a as ih =>
    intro rhs
    cases rhs with
    | nil =>
      unfold ct_slice_lex_cmp lexOrderSpec
      simp
    | cons b bs =>
      rcases Nat.lt_trichotomy a b with hab | hab | hab
      · have hcmp := natCompare_lt hab
        have hinit : ctLexStep (true, false) (a, b) = (false, false) := by
          have h1 : a ≠ b := by omega
          have h2 : ¬(b < a) := by omega
          simp [ctLexStep, h1, h2]
        unfold ct_slice_lex_cmp lexOrderSpec
        rw [List.zip_cons_cons, List.foldl_cons, hinit, ctLexLoop_false]
        simp [hcmp]
      · subst hab
        rw [ct_cons_same, ih bs, lexOrderSpec_cons, natCompare_self]
      · have hcmp := natCompare_gt hab
        have hinit : ctLexStep (true, false) (a, b) = (false, true) := by
          have h1 : a ≠ b := by omega
          simp [ctLexStep, h1, hab]
        unfold ct_slice_lex_cmp lexOrderSpec
        rw [List.zip_cons_cons, List.foldl_cons, hinit, ctLexLoop_false]
        simp [hcmp]

theorem lexOrderSpec_eq_compare (l : List Nat) :
    ∀ r, l.length = r.length → GoodBytes l → GoodBytes r →
      lexOrderSpec l r = compare (bytesToNat l) (bytesToNat r) := by
  induction l with
  | nil =>
    intro r hlen _ _
    cases r with
    | nil => simp [lexOrderSpec, bytesToNat, natCompare_self]
    | cons b bs => simp at hlen
  | cons a as ih =>
    intro r hlen hl hr
    cases r with
    | nil => simp at hlen
    | cons b bs =>
      have hlen2 : as.length = bs.length := by simpa using hlen
      have hgas : GoodBytes as := fun x hx => hl x (List.mem_cons_of_mem _ hx)
      have hgbs : GoodBytes bs := fun x hx => hr x (List.mem_cons_of_mem _ hx)
      have hras : bytesToNat as < 256 ^ as.length := bytesToNat_lt as hgas
      have hrbs : bytesToNat bs < 256 ^ bs.length := bytesToNat_lt bs hgbs
      rw [bytesToNat_cons, bytesToNat_cons, ← hlen2]
      rcases Nat.lt_trichotomy a b with hab | hab | hab
      · have hv : a * 256 ^ as.length + bytesToNat as <
            b * 256 ^ as.length + bytesToNat bs := by
          have hstep : (a + 1) * 256 ^ as.length ≤ b * 256 ^ as.length :=
            Nat.mul_le_mul_right _ (by omega)
          calc a * 256 ^ as.length + bytesToNat as
              < (a + 1) * 256 ^ as.length := by
                have : (a + 1) * 256 ^ as.length = a * 256 ^ as.length + 256 ^ as.length := by
                  ring
                omega
            _ ≤ b * 256 ^ as.length := hstep
            _ ≤ b * 256 ^ as.length + bytesToNat bs := Nat.le_add_right _ _
        rw [natCompare_lt hv]
        unfold lexOrderSpec
        rw [natCompare_lt hab]
      · subst hab
        unfold lexOrderSpec
        rw [natCompare_self, ih bs hlen2 hgas hgbs]
        rcases Nat.lt_trichotomy (bytesToNat as) (bytesToNat bs) with h | h | h
        · rw [natCompare_lt h, natCompare_lt (by omega)]
        · rw [h, natCompare_self, natCompare_self]
        · rw [natCompare_gt h, natCompare_gt (by omega)]
      · have hv : b * 256 ^ as.length + bytesToNat bs <
            a * 256 ^ as.length + bytesToNat as := by
          have hstep : (b + 1) * 256 ^ as.length ≤ a * 256 ^ as.length :=
            Nat.mul_le_mul_right _ (by omega)
          have hx : bytesToNat bs < 256 ^ as.length := by rw [hlen2]; exact hrbs
          have : (b + 1) * 256 ^ as.length = b * 256 ^ as.length + 256 ^ as.length := by
            ring
          omega
        rw [natCompare_gt hv]
        unfold lexOrderSpec
        rw [natCompare_gt hab]

theorem ct_slice_lex_cmp_values (l r : List Nat) (hlen : l.length = r.length)
    (hl : GoodBytes l) (hr : GoodBytes r) :
    ct_slice_lex_cmp l r = compare (bytesToNat l) (bytesToNat r) := by
  rw [ct_slice_lex_cmp_correct, lexOrderSpec_eq_compare l r hlen hl hr]

/-! ## Numeric facts about the curve constants -/

theorem curveOrderMinusOneBytes_good : GoodBytes CURVE_ORDER_MINUS_ONE_BYTES := by decide

theorem maxU256_good : GoodBytes MAX_U256 := by decide

theorem curveOrderMinusOneBytes_value :
    bytesToNat CURVE_ORDER_MINUS_ONE_BYTES = curveOrder - 1 := by decide

theorem curveOrder_lt_two_pow : curveOrder < 2 ^ 256 := by decide

theorem curveOrder_doubled : 2 ^ 256 < 2 * (curveOrder - 1) := by decide

theorem one_lt_curveOrder : 1 < curveOrder := by decide

theorem pow256_32 : (256 : Nat) ^ 32 = 2 ^ 256 := by norm_num

/-! ## Lemmas about serialization and parsing -/

theorem serialize_length (s : Scalar) : s.serialize.length = 32 :=
  natToBytesBE_length 32 s.inner

theorem serialize_good (s : Scalar) : GoodBytes s.serialize :=
  natToBytesBE_good 32 s.inner

theorem serialize_value (s : Scalar) (h : s.inner < 2 ^ 256) :
    bytesToNat s.serialize = s.inner := by
  rw [Scalar.serialize, bytesToNat_natToBytesBE, pow256_32, Nat.mod_eq_of_lt h]

theorem maybe_from_slice_val (bytes : List Nat) (h32 : bytes.length = 32)
    (hlt : bytesToNat bytes < curveOrder) :
    MaybeScalar.from_slice bytes =
      Except.ok (if bytesToNat bytes = 0 then MaybeScalar.Zero
                 else MaybeScalar.Valid (Scalar.mk (bytesToNat bytes))) := by
  by_cases h0 : bytesToNat bytes = 0
  · have hz : bytes = List.replicate 32 0 := by
      have := eq_replicate_zero_of_bytesToNat_eq_zero bytes h0
      rwa [h32] at this
    have herr : Scalar.from_slice bytes = Except.error InvalidScalarBytes.mk := by
      unfold Scalar.from_slice
      rw [if_neg]
      intro hcon
      omega
    unfold MaybeScalar.from_slice
    rw [herr]
    show (if bytes = List.replicate 32 0 then Except.ok MaybeScalar.Zero
          else Except.error InvalidScalarBytes.mk) = _
    rw [if_pos hz, if_pos h0]
  · have hok : Scalar.from_slice bytes = Except.ok (Scalar.mk (bytesToNat bytes)) := by
      unfold Scalar.from_slice
      rw [if_pos ⟨h32, by omega, hlt⟩]
    unfold MaybeScalar.from_slice
    rw [hok, if_neg h0]

theorem modulus_neg_parse :
    MaybeScalar.from_slice (xor_arrays CURVE_ORDER_MINUS_ONE_BYTES MAX_U256) =
      Except.ok (MaybeScalar.Valid (Scalar.mk (2 ^ 256 - curveOrder))) := by
  have hv : bytesToNat (xor_arrays CURVE_ORDER_MINUS_ONE_BYTES MAX_U256) =
      2 ^ 256 - curveOrder := by decide
  have hlen : (xor_arrays CURVE_ORDER_MINUS_ONE_BYTES MAX_U256).length = 32 := by decide
  rw [maybe_from_slice_val _ hlen (by rw [hv]; decide), hv,
    if_neg (by decide : ¬(2 ^ 256 - curveOrder = 0))]

/-! ## Correctness of the modular reduction -/

theorem reduce_from_internal_unfolded (z_bytes modulus : List Nat) :
    MaybeScalar.reduce_from_internal z_bytes modulus =
      match MaybeScalar.from_slice
          (if (ct_slice_lex_cmp z_bytes modulus != Ordering.lt)
           then xor_arrays z_bytes MAX_U256 else z_bytes),
        MaybeScalar.from_slice (xor_arrays modulus MAX_U256) with
      | Except.ok q, Except.ok r =>
        some (MaybeScalar.conditional_select q (MaybeScalar.subMaybe r q)
          (ct_slice_lex_cmp z_bytes modulus != Ordering.lt))
      | _, _ => none := rfl

theorem reduce_internal_small (z : List Nat) (h32 : z.length = 32)
    (hg : GoodBytes z) (hlt : bytesToNat z < curveOrder - 1) :
    MaybeScalar.reduce_from_internal z CURVE_ORDER_MINUS_ONE_BYTES =
      some (if bytesToNat z % (curveOrder - 1) = 0 then MaybeScalar.Zero
            else MaybeScalar.Valid (Scalar.mk (bytesToNat z % (curveOrder - 1)))) := by
  have hcmp : ct_slice_lex_cmp z CURVE_ORDER_MINUS_ONE_BYTES = Ordering.lt := by
    rw [ct_slice_lex_cmp_values z _ (by rw [h32]; rfl) hg curveOrderMinusOneBytes_good,
      curveOrderMinusOneBytes_value]
    exact natCompare_lt hlt
  have hzlt : bytesToNat z < curveOrder := by
    have := one_lt_curveOrder
    omega
  rw [reduce_from_internal_unfolded, hcmp]
  have hfalse : (Ordering.lt != Ordering.lt) = false := rfl
  rw [hfalse, if_neg (by simp), maybe_from_slice_val z h32 hzlt, modulus_neg_parse]
  rw [Nat.mod_eq_of_lt hlt]
  rfl

theorem reduce_internal_large (z : List Nat) (h32 : z.length = 32)
    (hg : GoodBytes z) (hge : curveOrder - 1 ≤ bytesToNat z) :
    MaybeScalar.reduce_from_internal z CURVE_ORDER_MINUS_ONE_BYTES =
      some (if bytesToNat z % (curveOrder - 1) = 0 then MaybeScalar.Zero
            else MaybeScalar.Valid (Scalar.mk (bytesToNat z % (curveOrder - 1)))) := by
  have hzlt : bytesToNat z < 2 ^ 256 := by
    have h := bytesToNat_lt z hg
    rw [h32, pow256_32] at h
    exact h
  have hcmp : (ct_slice_lex_cmp z CURVE_ORDER_MINUS_ONE_BYTES != Ordering.lt) = true := by
    rw [ct_slice_lex_cmp_values z _ (by rw [h32]; rfl) hg curveOrderMinusOneBytes_good,
      curveOrderMinusOneBytes_value]
    rcases Nat.eq_or_lt_of_le hge with h | h
    · rw [← h, natCompare_self]
      rfl
    · rw [natCompare_gt h]
      rfl
  have hqlen : (xor_arrays z MAX_U256).length = 32 := by
    simp [xor_arrays, MAX_U256, h32]
  have hqgood : GoodBytes (xor_arrays z MAX_U256) :=
    xor_arrays_good z MAX_U256 hg maxU256_good
  have hqval : bytesToNat (xor_arrays z MAX_U256) = 2 ^ 256 - 1 - bytesToNat z := by
    have hcompl := xor_arrays_complement z hg
    have hmax : List.replicate z.length (255 : Nat) = MAX_U256 := by rw [h32]; rfl
    rw [hmax, h32, pow256_32] at hcompl
    omega
  have hqlt : bytesToNat (xor_arrays z MAX_U256) < curveOrder := by
    have := curveOrder_doubled
    have := curveOrder_lt_two_pow
    omega
  have hmod : bytesToNat z % (curveOrder - 1) = bytesToNat z - (curveOrder - 1) := by
    rw [Nat.mod_eq_sub_mod hge]
    apply Nat.mod_eq_of_lt
    have := curveOrder_doubled
    omega
  rw [reduce_from_internal_unfolded, hcmp, if_pos rfl,
    maybe_from_slice_val _ hqlen hqlt, modulus_neg_parse]
  by_cases hq0 : bytesToNat (xor_arrays z MAX_U256) = 0
  · -- `z` is the all-ones array; the subtrahend parses to `Zero`, and
    -- `r - Zero` is `r` via the one-operand-absent branch of `add_any`.
    rw [if_pos hq0]
    have hrhs : bytesToNat z % (curveOrder - 1) = 2 ^ 256 - curveOrder := by
      rw [hmod]
      have := one_lt_curveOrder
      omega
    rw [hrhs, if_neg (by have := curveOrder_lt_two_pow; omega)]
    rfl
  · rw [if_neg hq0]
    have hqpos : 0 < bytesToNat (xor_arrays z MAX_U256) := by omega
    have hneg : Scalar.neg (Scalar.mk (bytesToNat (xor_arrays z MAX_U256))) =
        Scalar.mk (curveOrder - bytesToNat (xor_arrays z MAX_U256)) := by
      unfold Scalar.neg
      rw [Nat.mod_eq_of_lt hqlt]
      rw [Nat.mod_eq_of_lt (by omega)]
    have hsum : (2 ^ 256 - curveOrder +
        (curveOrder - bytesToNat (xor_arrays z MAX_U256))) % curveOrder =
        bytesToNat z - (curveOrder - 1) := by
      have h1 : 2 ^ 256 - curveOrder + (curveOrder - bytesToNat (xor_arrays z MAX_U256)) =
          bytesToNat z + 1 := by
        have := curveOrder_lt_two_pow
        omega
      rw [h1]
      have h2 : curveOrder ≤ bytesToNat z + 1 := by
        have := one_lt_curveOrder
        omega
      rw [Nat.mod_eq_sub_mod h2]
      have h3 : bytesToNat z + 1 - curveOrder = bytesToNat z - (curveOrder - 1) := by
        have := one_lt_curveOrder
        omega
      rw [h3]
      exact Nat.mod_eq_of_lt (by
        have := curveOrder_doubled
        have := one_lt_curveOrder
        omega)
    show some (Scalar.add (Scalar.mk (2 ^ 256 - curveOrder))
        (Scalar.neg (Scalar.mk (bytesToNat (xor_arrays z MAX_U256))))) = _
    rw [hneg]
    show some (if (2 ^ 256 - curveOrder +
          (curveOrder - bytesToNat (xor_arrays z MAX_U256))) % curveOrder = 0
        then MaybeScalar.Zero
        else MaybeScalar.Valid (Scalar.mk ((2 ^ 256 - curveOrder +
          (curveOrder - bytesToNat (xor_arrays z MAX_U256))) % curveOrder))) = _
    rw [hsum, hmod]

theorem reduce_from_internal_correct (z : List Nat) (h32 : z.length = 32)
    (hg : GoodBytes z) :
    MaybeScalar.reduce_from_internal z CURVE_ORDER_MINUS_ONE_BYTES =
      some (if bytesToNat z % (curveOrder - 1) = 0 then MaybeScalar.Zero
            else MaybeScalar.Valid (Scalar.mk (bytesToNat z % (curveOrder - 1)))) := by
  rcases Nat.lt_or_ge (bytesToNat z) (curveOrder - 1) with h | h
  · exact reduce_internal_small z h32 hg h
  · exact reduce_internal_large z h32 hg h

/-- The curve order as a decimal literal, convenient for `omega`. -/
theorem curveOrder_val : curveOrder =
    115792089237316195423570985008687907852837564279074904382605163141518161494337 := by
  decide

theorem scalarMax_inner : Scalar.max.inner = curveOrder - 1 :=
  curveOrderMinusOneBytes_value

theorem gtco_false (s : Scalar) (h : s.inner ≤ curveOrder - 1) (hlt : s.inner < 2 ^ 256) :
    Scalar.greater_than_curve_order_minus_one s = false := by
  unfold Scalar.greater_than_curve_order_minus_one
  rw [ct_slice_lex_cmp_values _ _ (by rw [serialize_length, serialize_length])
    (serialize_good _) (serialize_good _), serialize_value s hlt,
    serialize_value Scalar.max (by rw [scalarMax_inner]; have := curveOrder_lt_two_pow; omega),
    scalarMax_inner]
  rcases Nat.eq_or_lt_of_le h with h1 | h1
  · rw [h1, natCompare_self]
    rfl
  · rw [natCompare_lt h1]
    rfl

theorem gtco_true (s : Scalar) (h : curveOrder - 1 < s.inner) (hlt : s.inner < 2 ^ 256) :
    Scalar.greater_than_curve_order_minus_one s = true := by
  unfold Scalar.greater_than_curve_order_minus_one
  rw [ct_slice_lex_cmp_values _ _ (by rw [serialize_length, serialize_length])
    (serialize_good _) (serialize_good _), serialize_value s hlt,
    serialize_value Scalar.max (by rw [scalarMax_inner]; have := curveOrder_lt_two_pow; omega),
    scalarMax_inner]
  rw [natCompare_gt h]
  rfl

/-! ## Claim C1: `Scalar::reduce_from` computes `(z mod (n-1)) + 1` in `[1, n)` -/

/-- C1: for every 32-byte big-endian input `z`, `Scalar::reduce_from(z)`
returns (without panicking) the scalar `(z mod (n-1)) + 1`, where `n` is the
secp256k1 curve order, and the result always lies in the range `[1, n)`. -/
theorem claim_C1 (z : List Nat) (h32 : z.length = 32) (hg : GoodBytes z) :
    Scalar.reduce_from z =
      some (Scalar.mk (bytesToNat z % (curveOrder - 1) + 1)) ∧
    1 ≤ bytesToNat z % (curveOrder - 1) + 1 ∧
    bytesToNat z % (curveOrder - 1) + 1 < curveOrder := by
  have hmodlt : bytesToNat z % (curveOrder - 1) < curveOrder - 1 :=
    Nat.mod_lt _ (by have := one_lt_curveOrder; omega)
  refine ⟨?_, by omega, by have := one_lt_curveOrder; omega⟩
  unfold Scalar.reduce_from
  rw [reduce_from_internal_correct z h32 hg]
  by_cases h0 : bytesToNat z % (curveOrder - 1) = 0
  · rw [if_pos h0, h0]
    rfl
  · rw [if_neg h0]
    show (MaybeScalar.addScalar
        (MaybeScalar.Valid (Scalar.mk (bytesToNat z % (curveOrder - 1))))
        Scalar.one).unwrap = _
    show MaybeScalar.unwrap
        (if (bytesToNat z % (curveOrder - 1) + 1) % curveOrder = 0 then MaybeScalar.Zero
         else MaybeScalar.Valid
           (Scalar.mk ((bytesToNat z % (curveOrder - 1) + 1) % curveOrder))) = _
    have hlt : bytesToNat z % (curveOrder - 1) + 1 < curveOrder := by
      have := one_lt_curveOrder
      omega
    rw [Nat.mod_eq_of_lt hlt, if_neg (by omega)]
    rfl

/-- Witness for C1: the all-zero input reduces to the scalar 1, and the
all-ones input reduces to a value below the curve order. -/
theorem claim_C1_witness :
    Scalar.reduce_from (List.replicate 32 0) = some (Scalar.mk 1) ∧
    (Scalar.reduce_from (List.replicate 32 255) =
      some (Scalar.mk (bytesToNat (List.replicate 32 255) % (curveOrder - 1) + 1)) ∧
     bytesToNat (List.replicate 32 255) % (curveOrder - 1) + 1 < curveOrder) := by
  have h0 := claim_C1 (List.replicate 32 0) (by decide) (by decide)
  have h1 := claim_C1 (List.replicate 32 255) (by decide) (by decide)
  refine ⟨?_, h1.1, h1.2.2⟩
  rw [h0.1]
  decide

/-! ## Claim C6: parse-serialize round trip for scalars -/

/-- C6: for every valid scalar `s`, parsing the 32-byte big-endian
serialization of `s` succeeds and yields `s` again. -/
theorem claim_C6 (s : Scalar) (hs : s.isValid) :
    Scalar.from_slice s.serialize = Except.ok s := by
  have hlt : s.inner < 2 ^ 256 := by
    have := curveOrder_lt_two_pow
    rcases hs with ⟨h1, h2⟩
    omega
  have hval := serialize_value s hlt
  unfold Scalar.from_slice
  rw [if_pos ⟨serialize_length s, by rw [hval]; exact hs.1, by rw [hval]; exact hs.2⟩, hval]

/-- Witness for C6 at the scalar 1. -/
theorem claim_C6_witness :
    Scalar.from_slice (Scalar.serialize (Scalar.mk 1)) = Except.ok (Scalar.mk 1) :=
  claim_C6 (Scalar.mk 1) (by decide)

/-! ## Claim C5: commutativity and the zero case of scalar addition -/

/-- C5: for all valid non-zero scalars `a` and `b`, `a + b` equals `b + a`,
and the sum is `MaybeScalar::Valid` of the modular sum unless
`serialize(-a) == serialize(b)`, in which case the sum is
`MaybeScalar::Zero`. -/
theorem claim_C5 (a b : Scalar) (ha : a.isValid) (hb : b.isValid) :
    Scalar.add a b = Scalar.add b a ∧
    ((Scalar.neg a).serialize = b.serialize → Scalar.add a b = MaybeScalar.Zero) ∧
    ((Scalar.neg a).serialize ≠ b.serialize →
      Scalar.add a b = MaybeScalar.Valid (Scalar.mk ((a.inner + b.inner) % curveOrder))) := by
  obtain ⟨ha1, ha2⟩ := ha
  obtain ⟨hb1, hb2⟩ := hb
  have h2p := curveOrder_lt_two_pow
  have hneginner : (Scalar.neg a).inner = curveOrder - a.inner := by
    unfold Scalar.neg
    rw [Nat.mod_eq_of_lt ha2, Nat.mod_eq_of_lt (by omega)]
  have hser : ((Scalar.neg a).serialize = b.serialize) ↔ curveOrder - a.inner = b.inner := by
    constructor
    · intro h
      have hcast := congrArg bytesToNat h
      rw [serialize_value (Scalar.neg a) (by rw [hneginner]; omega),
        serialize_value b (by omega), hneginner] at hcast
      exact hcast
    · intro h
      unfold Scalar.serialize
      rw [hneginner, h]
  have haddab : Scalar.add a b =
      if (a.inner + b.inner) % curveOrder = 0 then MaybeScalar.Zero
      else MaybeScalar.Valid (Scalar.mk ((a.inner + b.inner) % curveOrder)) := rfl
  have haddba : Scalar.add b a =
      if (b.inner + a.inner) % curveOrder = 0 then MaybeScalar.Zero
      else MaybeScalar.Valid (Scalar.mk ((b.inner + a.inner) % curveOrder)) := rfl
  refine ⟨?_, ?_, ?_⟩
  · rw [haddab, haddba, Nat.add_comm b.inner a.inner]
  · intro h
    have hbi : curveOrder - a.inner = b.inner := hser.mp h
    have h0 : (a.inner + b.inner) % curveOrder = 0 := by
      have hsum : a.inner + b.inner = curveOrder := by omega
      rw [hsum, Nat.mod_self]
    rw [haddab, if_pos h0]
  · intro h
    have hbi : curveOrder - a.inner ≠ b.inner := fun hc => h (hser.mpr hc)
    have h0 : (a.inner + b.inner) % curveOrder ≠ 0 := by
      rw [curveOrder_val] at ha2 hb2 hbi ⊢
      omega
    rw [haddab, if_neg h0]

/-- Witness for C5 at the scalars 1 and 2. -/
theorem claim_C5_witness :
    Scalar.add (Scalar.mk 1) (Scalar.mk 2) = Scalar.add (Scalar.mk 2) (Scalar.mk 1) ∧
    Scalar.add (Scalar.mk 1) (Scalar.mk 2) = MaybeScalar.Valid (Scalar.mk 3) := by
  have h := claim_C5 (Scalar.mk 1) (Scalar.mk 2) (by decide) (by decide)
  refine ⟨h.1, ?_⟩
  rw [h.2.2 (by decide)]
  decide

/-! ## Claim C3: the scalar tweak addition (`add_tweak`) -/

theorem add_tweak_unfolded (sk : SecretKey) (tweak : Scalar) :
    add_tweak sk tweak =
      if Scalar.greater_than_curve_order_minus_one (Scalar.mk sk.inner)
          || Scalar.greater_than_curve_order_minus_one tweak then
        Except.error
          "Secret key and tweak cannot be greater than or equal to the Secp256k1 curve order"
      else
        match Scalar.add (Scalar.mk sk.inner) tweak with
        | MaybeScalar.Zero =>
          Except.error "Invalid scalar value, greater than or equal to curve order"
        | MaybeScalar.Valid sk_prime =>
          if !sk_prime.greater_than_curve_order_minus_one then
            Except.ok (SecretKey.mk sk_prime.inner)
          else
            match Scalar.add sk_prime (Scalar.neg Scalar.curve_order_minus_one) with
            | MaybeScalar.Zero => Except.error "Invalid scalar value 2"
            | MaybeScalar.Valid s => Except.ok (SecretKey.mk s.inner) := rfl

/-- Counterexample to C3 as stated: when the tweak value exceeds `n - 1`
(here the tweak wraps the integer `n` itself), `add_tweak` rejects with the
guard error instead of reducing the tweak via `reduce_from`. -/
theorem claim_C3_counterexample :
    add_tweak (SecretKey.mk 1) (Scalar.mk curveOrder) =
      Except.error
        "Secret key and tweak cannot be greater than or equal to the Secp256k1 curve order" := by
  decide

/-- C3 (amended): `add_tweak` rejects when the base or the tweak exceeds
`n - 1` (a guard that never fires for valid scalars); otherwise it returns
`base + tweak mod n`, surfacing a zero sum as an error rather than silently
returning zero. -/
theorem claim_C3 (sk : SecretKey) (tweak : Scalar)
    (hsk : 1 ≤ sk.inner ∧ sk.inner < curveOrder) (htw : tweak.isValid) :
    add_tweak sk tweak =
      if (sk.inner + tweak.inner) % curveOrder = 0 then
        Except.error "Invalid scalar value, greater than or equal to curve order"
      else Except.ok (SecretKey.mk ((sk.inner + tweak.inner) % curveOrder)) := by
  have h2p := curveOrder_lt_two_pow
  have hg1 : Scalar.greater_than_curve_order_minus_one (Scalar.mk sk.inner) = false :=
    gtco_false _ (by show sk.inner ≤ curveOrder - 1; have := one_lt_curveOrder; omega)
      (by show sk.inner < 2 ^ 256; omega)
  have hg2 : Scalar.greater_than_curve_order_minus_one tweak = false :=
    gtco_false _ (by have := one_lt_curveOrder; rcases htw with ⟨h1, h2⟩; omega)
      (by rcases htw with ⟨h1, h2⟩; omega)
  rw [add_tweak_unfolded, hg1, hg2]
  show (match Scalar.add (Scalar.mk sk.inner) tweak with
    | MaybeScalar.Zero =>
      Except.error "Invalid scalar value, greater than or equal to curve order"
    | MaybeScalar.Valid sk_prime =>
      if !sk_prime.greater_than_curve_order_minus_one then
        Except.ok (SecretKey.mk sk_prime.inner)
      else
        match Scalar.add sk_prime (Scalar.neg Scalar.curve_order_minus_one) with
        | MaybeScalar.Zero => Except.error "Invalid scalar value 2"
        | MaybeScalar.Valid s => Except.ok (SecretKey.mk s.inner)) = _
  have haddeq : Scalar.add (Scalar.mk sk.inner) tweak =
      if (sk.inner + tweak.inner) % curveOrder = 0 then MaybeScalar.Zero
      else MaybeScalar.Valid (Scalar.mk ((sk.inner + tweak.inner) % curveOrder)) := rfl
  by_cases h0 : (sk.inner + tweak.inner) % curveOrder = 0
  · rw [haddeq, if_pos h0, if_pos h0]
  · rw [haddeq, if_neg h0, if_neg h0]
    have hsumlt : (sk.inner + tweak.inner) % curveOrder < curveOrder :=
      Nat.mod_lt _ (by have := one_lt_curveOrder; omega)
    have hgp : Scalar.greater_than_curve_order_minus_one
        (Scalar.mk ((sk.inner + tweak.inner) % curveOrder)) = false :=
      gtco_false _
        (by
          show (sk.inner + tweak.inner) % curveOrder ≤ curveOrder - 1
          have := one_lt_curveOrder
          omega)
        (by
          show (sk.inner + tweak.inner) % curveOrder < 2 ^ 256
          omega)
    show (if !Scalar.greater_than_curve_order_minus_one
        (Scalar.mk ((sk.inner + tweak.inner) % curveOrder)) then _ else _) = _
    rw [hgp]
    rfl

/-- Witness for C3 (amended) at base 1 and tweak 1. -/
theorem claim_C3_witness :
    add_tweak (SecretKey.mk 1) (Scalar.mk 1) = Except.ok (SecretKey.mk 2) := by
  have h := claim_C3 (SecretKey.mk 1) (Scalar.mk 1) (by decide) (by decide)
  rw [h]
  decide

/-! ## Claim C7: `ct_slice_lex_cmp` implements lexicographic order -/

/-- C7: for every pair of byte slices, `ct_slice_lex_cmp` returns the
lexicographic ordering, where a strict prefix is deemed `Less`; in
particular on the two concrete vectors from the spec. -/
theorem claim_C7 :
    (∀ lhs rhs : List Nat, ct_slice_lex_cmp lhs rhs = lexOrderSpec lhs rhs) ∧
    ct_slice_lex_cmp [0x01, 0x02] [0x01, 0x03] = Ordering.lt ∧
    ct_slice_lex_cmp [0x01] [0x01, 0x00] = Ordering.lt :=
  ⟨fun lhs rhs => ct_slice_lex_cmp_correct lhs rhs, by decide, by decide⟩

/-! ## Claim C4: the `add_any` dispatcher -/

/-- C4: `add_any` returns the identity element when both operands are
absent; when exactly one operand is present it returns that operand lifted,
without invoking the inner addition (the result does not depend on it); and
it invokes the inner addition exactly when both operands are present. -/
theorem claim_C4 {T1 T2 T3 I : Type} (optA : T1 → Option I) (optB : T2 → Option I)
    (addInner : I → I → T3) (dflt : T3) (lift : I → T3) (a : T1) (b : T2) :
    (optA a = none → optB b = none →
      add_any optA optB addInner dflt lift a b = dflt) ∧
    (∀ x, optA a = some x → optB b = none →
      add_any optA optB addInner dflt lift a b = lift x) ∧
    (∀ y, optA a = none → optB b = some y →
      add_any optA optB addInner dflt lift a b = lift y) ∧
    (∀ addInner2 : I → I → T3, optA a = none ∨ optB b = none →
      add_any optA optB addInner dflt lift a b =
        add_any optA optB addInner2 dflt lift a b) ∧
    (∀ x y, optA a = some x → optB b = some y →
      add_any optA optB addInner dflt lift a b = addInner x y) := by
  unfold add_any
  refine ⟨?_, ?_, ?_, ?_, ?_⟩
  · intro h1 h2
    rw [h1, h2]
  · intro x h1 h2
    rw [h1, h2]
  · intro y h1 h2
    rw [h1, h2]
  · intro addInner2 h
    rcases h with h | h
    · rw [h]
    · rw [h]
  · intro x y h1 h2
    rw [h1, h2]

/-- Witness for C4 on the `MaybeScalar + MaybeScalar` instantiation:
`Valid 1 + Zero` is `Valid 1` (the present operand, unchanged), and
`Zero + Zero` is the identity `Zero`. -/
theorem claim_C4_witness :
    MaybeScalar.addMaybe (MaybeScalar.Valid Scalar.one) MaybeScalar.Zero =
      MaybeScalar.Valid Scalar.one ∧
    MaybeScalar.addMaybe MaybeScalar.Zero MaybeScalar.Zero = MaybeScalar.Zero := by
  constructor
  · exact (claim_C4 MaybeScalar.into_option MaybeScalar.into_option Scalar.add
      MaybeScalar.Zero MaybeScalar.Valid
      (MaybeScalar.Valid Scalar.one) MaybeScalar.Zero).2.1 Scalar.one rfl rfl
  · exact (claim_C4 MaybeScalar.into_option MaybeScalar.into_option Scalar.add
      MaybeScalar.Zero MaybeScalar.Valid
      MaybeScalar.Zero MaybeScalar.Zero).1 rfl rfl

/-! ## Claim C8: `Parity::from_u8` -/

/-- C8: `Parity::from_u8` maps 0 to `Even`, 1 to `Odd`, and any other byte
value to an `InvalidParityValue` error. -/
theorem claim_C8 :
    Parity.from_u8 0 = Except.ok Parity.Even ∧
    Parity.from_u8 1 = Except.ok Parity.Odd ∧
    ∀ b : Nat, b ≠ 0 → b ≠ 1 →
      Parity.from_u8 b = Except.error (InvalidParityValue.mk (b : Int)) := by
  refine ⟨rfl, rfl, ?_⟩
  intro b h0 h1
  unfold Parity.from_u8 Parity.from_i32
  rw [if_neg (show ¬((b : Int) = 0) by omega),
    if_neg (show ¬((b : Int) = 1) by omega)]

/-- Witness for C8 at the byte value 2. -/
theorem claim_C8_witness :
    Parity.from_u8 2 = Except.error (InvalidParityValue.mk (2 : Int)) :=
  claim_C8.2.2 2 (by decide) (by decide)

/-! ## Claim C10: `MaybeScalar::unwrap` -/

/-- C10: `unwrap` returns the inner scalar on `Valid`, panics (modelled as
`none`) on `Zero`, and the panic branch is unreachable exactly when the
value is not `Zero`. -/
theorem claim_C10 :
    (∀ s, MaybeScalar.unwrap (MaybeScalar.Valid s) = some s) ∧
    MaybeScalar.unwrap MaybeScalar.Zero = none ∧
    ∀ m : MaybeScalar, (∃ s, MaybeScalar.unwrap m = some s) ↔ m ≠ MaybeScalar.Zero := by
  refine ⟨fun s => rfl, rfl, ?_⟩
  intro m
  cases m with
  | Zero => simp [MaybeScalar.unwrap]
  | Valid s => simp [MaybeScalar.unwrap]

/-! ## Claim C2: `add_exp_tweak` is a stub (code bug) -/

/-- C2 (code-bug evidence): the committed body of `add_exp_tweak` returns
its input unchanged and never fails, for every public key and tweak; in
particular at the generator with tweak 1, where the documented behavior
would require returning `G + 1*G = 2*G`. -/
theorem claim_C2_stub (pk : PublicKey) (tweak : Scalar) :
    add_exp_tweak pk tweak = Except.ok pk := rfl

/-- Witness for C2 at the generator point and tweak 1. -/
theorem claim_C2_stub_witness :
    add_exp_tweak generatorPoint (Scalar.mk 1) = Except.ok generatorPoint :=
  claim_C2_stub generatorPoint (Scalar.mk 1)

/-! ## Primality of the curve order (Lucas certificate)

Claim C9 (`Scalar * Scalar` never yields zero) is exactly the statement
that `n` is prime; we verify a Pratt/Lucas certificate for the secp256k1
curve order by kernel computation through `powMod`. -/

theorem powModAux_spec (m : Nat) (hm : 0 < m) :
    ∀ fuel e a acc, e < 2 ^ fuel → acc < m →
      powModAux m fuel a e acc = acc * a ^ e % m := by
  intro fuel
  induction fuel with
  | zero =>
    intro e a acc he hacc
    have he0 : e = 0 := by
      have : (2 : Nat) ^ 0 = 1 := by norm_num
      omega
    subst he0
    show acc = acc * a ^ 0 % m
    rw [pow_zero, Nat.mul_one, Nat.mod_eq_of_lt hacc]
  | succ fuel ih =>
    intro e a acc he hacc
    show (if e = 0 then acc
      else powModAux m fuel (a * a % m) (e / 2)
        (if e % 2 = 1 then acc * a % m else acc)) = acc * a ^ e % m
    by_cases he0 : e = 0
    · subst he0
      rw [if_pos rfl, pow_zero, Nat.mul_one, Nat.mod_eq_of_lt hacc]
    · rw [if_neg he0]
      have hehalf : e / 2 < 2 ^ fuel := by
        have hpow : (2 : Nat) ^ (fuel + 1) = 2 ^ fuel * 2 := pow_succ 2 fuel
        omega
      have hacc2 : (if e % 2 = 1 then acc * a % m else acc) < m := by
        by_cases hpar : e % 2 = 1
        · rw [if_pos hpar]
          exact Nat.mod_lt _ hm
        · rw [if_neg hpar]
          exact hacc
      rw [ih (e / 2) (a * a % m) _ hehalf hacc2]
      have hbase : (if e % 2 = 1 then acc * a % m else acc) * (a * a % m) ^ (e / 2) % m =
          (if e % 2 = 1 then acc * a % m else acc) * a ^ (2 * (e / 2)) % m := by
        rw [show a * a = a ^ 2 from by ring, pow_mul]
        rw [Nat.mul_mod, ← Nat.pow_mod, ← Nat.mul_mod]
      rw [hbase]
      by_cases hpar : e % 2 = 1
      · rw [if_pos hpar]
        have hsplit : e = 2 * (e / 2) + 1 := by omega
        rw [Nat.mul_mod, Nat.mod_mod, ← Nat.mul_mod, Nat.mul_assoc,
          ← pow_succ' a (2 * (e / 2))]
        rw [← hsplit]
      · rw [if_neg hpar]
        have hsplit : e = 2 * (e / 2) := by omega
        rw [← hsplit]

theorem powMod_spec (m a e : Nat) (hm : 0 < m) : powMod m a e = a ^ e % m := by
  unfold powMod
  have hfuel : e < 2 ^ (e + 1) := by
    have h1 : e < 2 ^ e := Nat.lt_two_pow e
    have h2 : (2 : Nat) ^ e ≤ 2 ^ (e + 1) := Nat.pow_le_pow_right (by norm_num) (by omega)
    omega
  rw [powModAux_spec m hm (e + 1) e (a % m) (1 % m) hfuel (Nat.mod_lt _ hm)]
  rw [Nat.mul_mod, Nat.mod_mod, ← Nat.pow_mod, ← Nat.mul_mod, Nat.one_mul]

theorem lucasFromNat (p a : Nat) (hp : 1 < p)
    (h1 : powMod p a (p - 1) = 1)
    (hd : ∀ q : Nat, q.Prime → q ∣ p - 1 → powMod p a ((p - 1) / q) ≠ 1) :
    Nat.Prime p := by
  have hp0 : 0 < p := by omega
  apply lucas_primality p (a : ZMod p)
  · have hmod : Nat.ModEq p (a ^ (p - 1)) 1 := by
      show a ^ (p - 1) % p = 1 % p
      rw [← powMod_spec p a (p - 1) hp0, h1, Nat.mod_eq_of_lt hp]
    have hcast : ((a ^ (p - 1) : Nat) : ZMod p) = ((1 : Nat) : ZMod p) :=
      (ZMod.natCast_eq_natCast_iff _ _ _).mpr hmod
    rw [Nat.cast_pow, Nat.cast_one] at hcast
    exact hcast
  · intro q hq hdvd hcon
    apply hd q hq hdvd
    have hcast : ((a ^ ((p - 1) / q) : Nat) : ZMod p) = ((1 : Nat) : ZMod p) := by
      rw [Nat.cast_pow, Nat.cast_one]
      exact hcon
    have hmod : a ^ ((p - 1) / q) % p = 1 % p :=
      (ZMod.natCast_eq_natCast_iff _ _ _).mp hcast
    rw [← powMod_spec p a _ hp0, Nat.mod_eq_of_lt hp] at hmod
    exact hmod

theorem prime_461 : Nat.Prime 461 := by norm_num

theorem prime_1627771 : Nat.Prime 1627771 := by norm_num

theorem prime_297159362677 : Nat.Prime 297159362677 := by
  apply lucasFromNat 297159362677 2 (by norm_num)
  · decide
  · intro q hq hdvd
    have heq : (297159362677 : Nat) - 1 =
        2 ^ 2 * (3 ^ 2 * (11 * (461 * 1627771))) := by norm_num
    rw [heq] at hdvd
    rcases (Nat.Prime.dvd_mul hq).mp hdvd with h | h
    · rw [(Nat.prime_dvd_prime_iff_eq hq Nat.prime_two).mp (hq.dvd_of_dvd_pow h)]
      decide
    rcases (Nat.Prime.dvd_mul hq).mp h with h | h
    · rw [(Nat.prime_dvd_prime_iff_eq hq Nat.prime_three).mp (hq.dvd_of_dvd_pow h)]
      decide
    rcases (Nat.Prime.dvd_mul hq).mp h with h | h
    · rw [(Nat.prime_dvd_prime_iff_eq hq (by norm_num)).mp h]
      decide
    rcases (Nat.Prime.dvd_mul hq).mp h with h | h
    · rw [(Nat.prime_dvd_prime_iff_eq hq prime_461).mp h]
      decide
    · rw [(Nat.prime_dvd_prime_iff_eq hq prime_1627771).mp h]
      decide

theorem prime_293 : Nat.Prime 293 := by norm_num

theorem prime_305873 : Nat.Prime 305873 := by norm_num

theorem prime_28181 : Nat.Prime 28181 := by norm_num

theorem prime_545358713 : Nat.Prime 545358713 := by
  apply lucasFromNat 545358713 5 (by norm_num)
  · decide
  · intro q hq hdvd
    have heq : (545358713 : Nat) - 1 = 2 ^ 3 * (41 * (59 * 28181)) := by norm_num
    rw [heq] at hdvd
    rcases (Nat.Prime.dvd_mul hq).mp hdvd with h | h
    · rw [(Nat.prime_dvd_prime_iff_eq hq Nat.prime_two).mp (hq.dvd_of_dvd_pow h)]
      decide
    rcases (Nat.Prime.dvd_mul hq).mp h with h | h
    · rw [(Nat.prime_dvd_prime_iff_eq hq (by norm_num)).mp h]
      decide
    rcases (Nat.Prime.dvd_mul hq).mp h with h | h
    · rw [(Nat.prime_dvd_prime_iff_eq hq (by norm_num : Nat.Prime 59)).mp h]
      decide
    · rw [(Nat.prime_dvd_prime_iff_eq hq prime_28181).mp h]
      decide

theorem prime_p29 : Nat.Prime 29047611873442575647497758179 := by
  apply lucasFromNat 29047611873442575647497758179 2 (by norm_num)
  · decide
  · intro q hq hdvd
    have heq : (29047611873442575647497758179 : Nat) - 1 =
        2 * (293 * (305873 * (545358713 * 297159362677))) := by norm_num
    rw [heq] at hdvd
    rcases (Nat.Prime.dvd_mul hq).mp hdvd with h | h
    · rw [(Nat.prime_dvd_prime_iff_eq hq Nat.prime_two).mp h]
      decide
    rcases (Nat.Prime.dvd_mul hq).mp h with h | h
    · rw [(Nat.prime_dvd_prime_iff_eq hq prime_293).mp h]
      decide
    rcases (Nat.Prime.dvd_mul hq).mp h with h | h
    · rw [(Nat.prime_dvd_prime_iff_eq hq prime_305873).mp h]
      decide
    rcases (Nat.Prime.dvd_mul hq).mp h with h | h
    · rw [(Nat.prime_dvd_prime_iff_eq hq prime_545358713).mp h]
      decide
    · rw [(Nat.prime_dvd_prime_iff_eq hq prime_297159362677).mp h]
      decide

theorem prime_109 : Nat.Prime 109 := by norm_num

theorem prime_p33 : Nat.Prime 341948486974166000522343609283189 := by
  apply lucasFromNat 341948486974166000522343609283189 2 (by norm_num)
  · decide
  · intro q hq hdvd
    have heq : (341948486974166000522343609283189 : Nat) - 1 =
        2 ^ 2 * (3 ^ 3 * (109 * 29047611873442575647497758179)) := by norm_num
    rw [heq] at hdvd
    rcases (Nat.Prime.dvd_mul hq).mp hdvd with h | h
    · rw [(Nat.prime_dvd_prime_iff_eq hq Nat.prime_two).mp (hq.dvd_of_dvd_pow h)]
      decide
    rcases (Nat.Prime.dvd_mul hq).mp h with h | h
    · rw [(Nat.prime_dvd_prime_iff_eq hq Nat.prime_three).mp (hq.dvd_of_dvd_pow h)]
      decide
    rcases (Nat.Prime.dvd_mul hq).mp h with h | h
    · rw [(Nat.prime_dvd_prime_iff_eq hq prime_109).mp h]
      decide
    · rw [(Nat.prime_dvd_prime_iff_eq hq prime_p29).mp h]
      decide

theorem prime_16699 : Nat.Prime 16699 := by norm_num

theorem prime_85831 : Nat.Prime 85831 := by norm_num

theorem prime_97 : Nat.Prime 97 := by norm_num

theorem prime_2011 : Nat.Prime 2011 := by norm_num

theorem prime_4681609 : Nat.Prime 4681609 := by
  apply lucasFromNat 4681609 23 (by norm_num)
  · decide
  · intro q hq hdvd
    have heq : (4681609 : Nat) - 1 = 2 ^ 3 * (3 * (97 * 2011)) := by norm_num
    rw [heq] at hdvd
    rcases (Nat.Prime.dvd_mul hq).mp hdvd with h | h
    · rw [(Nat.prime_dvd_prime_iff_eq hq Nat.prime_two).mp (hq.dvd_of_dvd_pow h)]
      decide
    rcases (Nat.Prime.dvd_mul hq).mp h with h | h
    · rw [(Nat.prime_dvd_prime_iff_eq hq Nat.prime_three).mp h]
      decide
    rcases (Nat.Prime.dvd_mul hq).mp h with h | h
    · rw [(Nat.prime_dvd_prime_iff_eq hq prime_97).mp h]
      decide
    · rw [(Nat.prime_dvd_prime_iff_eq hq prime_2011).mp h]
      decide

theorem prime_p17 : Nat.Prime 107361793816595537 := by
  apply lucasFromNat 107361793816595537 3 (by norm_num)
  · decide
  · intro q hq hdvd
    have heq : (107361793816595537 : Nat) - 1 =
        2 ^ 4 * (16699 * (85831 * 4681609)) := by norm_num
    rw [heq] at hdvd
    rcases (Nat.Prime.dvd_mul hq).mp hdvd with h | h
    · rw [(Nat.prime_dvd_prime_iff_eq hq Nat.prime_two).mp (hq.dvd_of_dvd_pow h)]
      decide
    rcases (Nat.Prime.dvd_mul hq).mp h with h | h
    · rw [(Nat.prime_dvd_prime_iff_eq hq prime_16699).mp h]
      decide
    rcases (Nat.Prime.dvd_mul hq).mp h with h | h
    · rw [(Nat.prime_dvd_prime_iff_eq hq prime_85831).mp h]
      decide
    · rw [(Nat.prime_dvd_prime_iff_eq hq prime_4681609).mp h]
      decide

theorem prime_17 : Nat.Prime 17 := by norm_num

theorem prime_59 : Nat.Prime 59 := by norm_num

theorem prime_4051 : Nat.Prime 4051 := by norm_num

theorem prime_120233 : Nat.Prime 120233 := by norm_num

theorem prime_797 : Nat.Prime 797 := by norm_num

theorem prime_9349 : Nat.Prime 9349 := by norm_num

theorem prime_44706919 : Nat.Prime 44706919 := by
  apply lucasFromNat 44706919 6 (by norm_num)
  · decide
  · intro q hq hdvd
    have heq : (44706919 : Nat) - 1 = 2 * (3 * (797 * 9349)) := by norm_num
    rw [heq] at hdvd
    rcases (Nat.Prime.dvd_mul hq).mp hdvd with h | h
    · rw [(Nat.prime_dvd_prime_iff_eq hq Nat.prime_two).mp h]
      decide
    rcases (Nat.Prime.dvd_mul hq).mp h with h | h
    · rw [(Nat.prime_dvd_prime_iff_eq hq Nat.prime_three).mp h]
      decide
    rcases (Nat.Prime.dvd_mul hq).mp h with h | h
    · rw [(Nat.prime_dvd_prime_iff_eq hq prime_797).mp h]
      decide
    · rw [(Nat.prime_dvd_prime_iff_eq hq prime_9349).mp h]
      decide

theorem prime_p21 : Nat.Prime 174723607534414371449 := by
  apply lucasFromNat 174723607534414371449 3 (by norm_num)
  · decide
  · intro q hq hdvd
    have heq : (174723607534414371449 : Nat) - 1 =
        2 ^ 3 * (17 * (59 * (4051 * (120233 * 44706919)))) := by norm_num
    rw [heq] at hdvd
    rcases (Nat.Prime.dvd_mul hq).mp hdvd with h | h
    · rw [(Nat.prime_dvd_prime_iff_eq hq Nat.prime_two).mp (hq.dvd_of_dvd_pow h)]
      decide
    rcases (Nat.Prime.dvd_mul hq).mp h with h | h
    · rw [(Nat.prime_dvd_prime_iff_eq hq prime_17).mp h]
      decide
    rcases (Nat.Prime.dvd_mul hq).mp h with h | h
    · rw [(Nat.prime_dvd_prime_iff_eq hq prime_59).mp h]
      decide
    rcases (Nat.Prime.dvd_mul hq).mp h with h | h
    · rw [(Nat.prime_dvd_prime_iff_eq hq prime_4051).mp h]
      decide
    rcases (Nat.Prime.dvd_mul hq).mp h with h | h
    · rw [(Nat.prime_dvd_prime_iff_eq hq prime_120233).mp h]
      decide
    · rw [(Nat.prime_dvd_prime_iff_eq hq prime_44706919).mp h]
      decide

theorem prime_149 : Nat.Prime 149 := by norm_num

theorem prime_631 : Nat.Prime 631 := by norm_num

/-- The secp256k1 curve order is prime (Pratt certificate, witness 7). -/
theorem curveOrder_prime : Nat.Prime curveOrder := by
  rw [curveOrder_val]
  apply lucasFromNat
    115792089237316195423570985008687907852837564279074904382605163141518161494337
    7 (by norm_num)
  · decide
  · intro q hq hdvd
    have heq :
        (115792089237316195423570985008687907852837564279074904382605163141518161494337 :
          Nat) - 1 =
        2 ^ 6 * (3 * (149 * (631 * (107361793816595537 *
          (174723607534414371449 * 341948486974166000522343609283189))))) := by norm_num
    rw [heq] at hdvd
    rcases (Nat.Prime.dvd_mul hq).mp hdvd with h | h
    · rw [(Nat.prime_dvd_prime_iff_eq hq Nat.prime_two).mp (hq.dvd_of_dvd_pow h)]
      decide
    rcases (Nat.Prime.dvd_mul hq).mp h with h | h
    · rw [(Nat.prime_dvd_prime_iff_eq hq Nat.prime_three).mp h]
      decide
    rcases (Nat.Prime.dvd_mul hq).mp h with h | h
    · rw [(Nat.prime_dvd_prime_iff_eq hq prime_149).mp h]
      decide
    rcases (Nat.Prime.dvd_mul hq).mp h with h | h
    · rw [(Nat.prime_dvd_prime_iff_eq hq prime_631).mp h]
      decide
    rcases (Nat.Prime.dvd_mul hq).mp h with h | h
    · rw [(Nat.prime_dvd_prime_iff_eq hq prime_p17).mp h]
      decide
    rcases (Nat.Prime.dvd_mul hq).mp h with h | h
    · rw [(Nat.prime_dvd_prime_iff_eq hq prime_p21).mp h]
      decide
    · rw [(Nat.prime_dvd_prime_iff_eq hq prime_p33).mp h]
      decide

/-! ## Claim C9: `Scalar * Scalar` is always a valid non-zero scalar -/

/-- C9: for all valid non-zero scalars `a` and `b`, the product `a * b` is
itself a valid non-zero scalar: multiplication of two non-zero residues
modulo the prime curve order never yields zero. -/
theorem claim_C9 (a b : Scalar) (ha : a.isValid) (hb : b.isValid) :
    (Scalar.mul a b).isValid := by
  obtain ⟨ha1, ha2⟩ := ha
  obtain ⟨hb1, hb2⟩ := hb
  have hp : Nat.Prime curveOrder := curveOrder_prime
  have h0 : (a.inner * b.inner) % curveOrder ≠ 0 := by
    intro h
    have hdvd : curveOrder ∣ a.inner * b.inner := Nat.dvd_of_mod_eq_zero h
    rcases (Nat.Prime.dvd_mul hp).mp hdvd with h | h
    · have := Nat.le_of_dvd (by omega) h
      omega
    · have := Nat.le_of_dvd (by omega) h
      omega
  constructor
  · show 1 ≤ (a.inner * b.inner) % curveOrder
    omega
  · show (a.inner * b.inner) % curveOrder < curveOrder
    exact Nat.mod_lt _ (by have := one_lt_curveOrder; omega)

/-- Witness for C9 at the scalars 1 and 1. -/
theorem claim_C9_witness : (Scalar.mul (Scalar.mk 1) (Scalar.mk 1)).isValid :=
  claim_C9 (Scalar.mk 1) (Scalar.mk 1) (by decide) (by decide)

end BitcoinK256
